import Mathlib

/-!
Verification of the meta-protocol message layer of tinc (`src/protocol_misc.c`):
a shallow embedding of the handlers and send routines, together with theorems
about the specified behaviour.  Formatted I/O (`sscanf`/`send_request` format
strings) is modelled at the character level; collaborator interfaces
(`check_id`, the success of the underlying send) are modelled as an explicit
environment; the node/connection data model follows `node.h`/`connection.h`
as described in the specification's data model.
-/

namespace Tinc

/-! ## Character-level model of the C formatted I/O (`sscanf`, `printf`) -/

/-- C `isspace`: the six standard whitespace characters. -/
def isWs (c : Char) : Bool :=
  c = ' ' || c = '\t' || c = '\n' || c = '\x0d' || c = '\x0b' || c = '\x0c'

/-- Skip leading whitespace, as `sscanf` does before `%d`/`%s` conversions. -/
def skipWs : List Char → List Char
  | [] => []
  | c :: cs => if isWs c then skipWs cs else c :: cs

/-- Maximal prefix of decimal digits (the digit run consumed by `%d`). -/
def takeDigits : List Char → List Char × List Char
  | [] => ([], [])
  | c :: cs =>
    if c.isDigit then
      let p := takeDigits cs
      (c :: p.1, p.2)
    else ([], c :: cs)

/-- Numeric value of one decimal digit character. -/
def digitVal (c : Char) : Nat := c.toNat - 48

/-- Value of a digit string, most significant digit first. -/
def digitsVal (ds : List Char) : Nat := ds.foldl (fun a c => 10 * a + digitVal c) 0

/-- Read one decimal run as a `Nat`; fails when no digit is present. -/
def scanDigits (s : List Char) : Option (Nat × List Char) :=
  if (takeDigits s).1 = [] then none
  else some (digitsVal (takeDigits s).1, (takeDigits s).2)

/-- A `%d` conversion after whitespace has been skipped:
optional sign followed by at least one digit. -/
def scanIntCore : List Char → Option (Int × List Char)
  | [] => none
  | c :: rest =>
    if c = '-' then (scanDigits rest).map (fun p => (-(p.1 : Int), p.2))
    else if c = '+' then (scanDigits rest).map (fun p => ((p.1 : Int), p.2))
    else (scanDigits (c :: rest)).map (fun p => ((p.1 : Int), p.2))

/-- The `sscanf` `%d` conversion: skip whitespace, then signed digit run. -/
def scanInt (s : List Char) : Option (Int × List Char) := scanIntCore (skipWs s)

/-- Up to `width` non-whitespace characters (the body of a bounded `%s`). -/
def takeNonWs : Nat → List Char → List Char × List Char
  | _, [] => ([], [])
  | 0, s => ([], s)
  | m + 1, c :: cs =>
    if isWs c then ([], c :: cs)
    else
      let p := takeNonWs m cs
      (c :: p.1, p.2)

/-- The `sscanf` bounded `%s` conversion (`MAX_STRING` is `%2047s`):
skip whitespace, then at least one and at most `width` non-whitespace
characters. -/
def scanString (width : Nat) (s : List Char) : Option (String × List Char) :=
  match takeNonWs width (skipWs s) with
  | ([], _) => none
  | (t, r) => some (String.mk t, r)

/-- One decimal digit as a character. -/
def digitChar : Nat → Char
  | 0 => '0' | 1 => '1' | 2 => '2' | 3 => '3' | 4 => '4'
  | 5 => '5' | 6 => '6' | 7 => '7' | 8 => '8' | 9 => '9'
  | _ => '0'

/-- Decimal digits of `n`, most significant first, prepended to `acc`
(the rendering performed by `printf` `%d` for non-negative values).
Structural recursion on a fuel argument; `fuel > n` always suffices. -/
def natCharsCore : Nat → Nat → List Char → List Char
  | 0, _, acc => acc
  | fuel + 1, n, acc =>
    if n < 10 then digitChar n :: acc
    else natCharsCore fuel (n / 10) (digitChar (n % 10) :: acc)

/-- Decimal rendering of a `Nat`. -/
def natChars (n : Nat) : List Char := natCharsCore (n + 1) n []

/-- Decimal rendering of an `Int`, with a leading minus sign when negative
(what `printf` `%d`/`%hd` emits). -/
def intChars (i : Int) : List Char :=
  if i < 0 then '-' :: natChars i.natAbs else natChars i.toNat

/-- The first character of `rest` (if any) is not a digit, so a maximal
digit run cannot extend into `rest`. -/
def headNotDigit : List Char → Prop
  | [] => True
  | c :: _ => c.isDigit = false


/-! ## Data model (`connection.h` / `node.h` as described in the spec) -/

/-- A socket address together with its port, as handled by the
`sockaddr2str`/`str2sockaddr` collaborators (address serialization is out
of scope, so an address is its textual host/port form). -/
structure SockAddr where
  host : String
  port : String
deriving DecidableEq

/-- `str2sockaddr`: parse a textual host and port into a socket address. -/
def str2sockaddr (address port : String) : SockAddr := ⟨address, port⟩

/-- `sockaddr2str`: render a socket address as a host and a port string. -/
def sockaddr2str (sa : SockAddr) : String × String := (sa.host, sa.port)

/-- `sockaddrcmp` as used here: nonzero (true) exactly when the two
addresses differ. -/
def sockaddrcmp (a b : SockAddr) : Bool := a ≠ b

/-- The edge record reached through `connection->edge`; only its
`local_address` is read by this module. -/
structure EdgeData where
  local_address : SockAddr
deriving DecidableEq

/-- The `outgoing_t` retry bookkeeping of a connection we initiated:
retry timeout, cached connect configuration, resolved-address iterator
(`ai` owns the list, `aip` is the cursor).  `rest` stands for the fields
this module never touches. -/
structure OutgoingData where
  rest : String
  timeout : Int
  cfg : Option Nat
  ai : Option Nat
  aip : Option Nat
deriving DecidableEq

/-- `connection_t.status` bits read or written by this module. -/
structure ConnStatus where
  pinged : Bool
deriving DecidableEq

/-- `connection_t`: one authenticated stream session to an adjacent peer. -/
structure ConnData where
  name : String
  hostname : String
  status : ConnStatus
  outgoing : Option OutgoingData
  tcplen : Int
  outbuf_len : Nat
  edge : Option EdgeData
deriving DecidableEq

/-- `node_t.status` bits read by this module. -/
structure NodeStatus where
  reachable : Bool
  udp_confirmed : Bool
deriving DecidableEq

/-- Nodes live in a stable-index table; a `NodeId` is an index into it. -/
abbrev NodeId := Nat

/-- `node_t`: a named mesh participant.  `via` and `nexthop` are indices
into the node table; `connection` is present iff we hold a direct
authenticated connection to this node. -/
structure NodeData where
  name : String
  hostname : String
  address : SockAddr
  via : NodeId
  nexthop : NodeId
  connection : Option ConnData
  options : Nat
  status : NodeStatus
deriving DecidableEq

/-- The node table plus the `myself` singleton (process-wide state this
module reads and updates). -/
structure MeshState where
  nodes : List NodeData
  myself : NodeId
deriving DecidableEq

/-- Pointer dereference of a node index. -/
def nodeAt : List NodeData → Nat → Option NodeData
  | [], _ => none
  | n :: _, 0 => some n
  | _ :: ns, i + 1 => nodeAt ns i

/-- Dereference a node index in the current state. -/
def getNode (st : MeshState) (i : NodeId) : Option NodeData := nodeAt st.nodes i

/-- `lookup_node`: resolve a name to a node (with its index) in the table. -/
def lookupNodeAux : List NodeData → Nat → String → Option (NodeId × NodeData)
  | [], _, _ => none
  | n :: ns, i, s => if n.name = s then some (i, n) else lookupNodeAux ns (i + 1) s

/-- `lookup_node` on the current state. -/
def lookup_node (st : MeshState) (s : String) : Option (NodeId × NodeData) :=
  lookupNodeAux st.nodes 0 s

/-- Overwrite the address of the node at index `i`. -/
def setNodeAddress : List NodeData → Nat → SockAddr → List NodeData
  | [], _, _ => []
  | n :: ns, 0, sa => { n with address := sa } :: ns
  | n :: ns, i + 1, sa => n :: setNodeAddress ns i sa

/-- Modelled from the spec: `update_node_udp` (defined in the net layer,
outside `src/`) records a newly learned UDP address for a node — "update
the node's recorded address". -/
def update_node_udp (st : MeshState) (i : NodeId) (sa : SockAddr) : MeshState :=
  { st with nodes := setNodeAddress st.nodes i sa }

/-- Modelled from the spec: the TCP-only capability bit of the `options`
bitfield ("one bit family encodes TCP-only mode"; the constant lives in
`net.h`, outside `src/`.  Its exact position is immaterial here). -/
def OPTION_TCPONLY : Nat := 1

/-- Modelled from the spec: the numeric value of the PACKET opcode is
assigned by the request enum in `protocol.h`, outside `src/`; receivers
skip it with `%*d`, so the exact value is immaterial. -/
def PACKET : Nat := 17

/-- One emitted UDP_INFO request: `from.name, to.name, from_address,
from_port` (§4.4 step 4). -/
structure UdpInfoMsg where
  from_name : String
  to_name : String
  from_address : String
  from_port : String
deriving DecidableEq

/-- A request handed to `send_request` on a given connection. -/
abbrev Emitted := ConnData × UdpInfoMsg

/-- Collaborator interfaces: the identifier-syntax predicate `check_id`
(`protocol.c`, outside this module) and whether the underlying
`send_request` enqueue succeeds. -/
structure Env where
  check_id : String → Bool
  send_ok : ConnData → UdpInfoMsg → Bool

/-! ## Status, Pong and PACKET handlers -/

/-- The `sscanf(request, "%*d %d %2047s", ...)` decode used by `status_h`
(and `error_h`): skipped opcode, integer code, bounded text. -/
def statusScan (s : List Char) : Option (Int × String) :=
  match scanInt s with
  | none => none
  | some (_, r0) =>
    match scanInt r0 with
    | none => none
    | some (code, r1) =>
      match scanString 2047 r1 with
      | none => none
      | some (text, _) => some (code, text)

/-- `status_h`: log and accept a well-formed Status line; reject (close
signal) a line whose decode fails. -/
def status_h (c : ConnData) (request : String) : Bool :=
  match statusScan request.data with
  | none => false
  | some _ => true

/-- `pong_h`: clear `pinged`; when this is an outgoing attempt we
initiated, clear the retry timeout, the cached config and the
resolved-address iterator.  Returns the updated connection and the
handler result. -/
def pong_h (c : ConnData) : ConnData × Bool :=
  let c1 := { c with status := { c.status with pinged := false } }
  match c1.outgoing with
  | none => (c1, true)
  | some o =>
    ({ c1 with outgoing := some { o with timeout := 0, cfg := none, ai := none, aip := none } },
      true)

/-- Reinterpretation of an integer as a C `short` (the `%hd` conversion
and the `(short)` narrowing applied when printing a 16-bit length). -/
def shortOfInt (v : Int) : Int := (v + 32768) % 65536 - 32768

/-- The 16-bit length as it appears on the wire: `printf("%hd", len)`
narrows the unsigned 16-bit `packet->len` to a signed short. -/
def shortOfNat (n : Nat) : Int := shortOfInt (n % 65536 : Nat)

/-- The framing line `send_request(c, "%d %hd", PACKET, packet->len)`
emits. -/
def packet_line (plen : Nat) : List Char :=
  intChars (PACKET : Int) ++ ' ' :: intChars (shortOfNat plen)

/-- The RED drop probability `2.0 * c->outbuf.len / maxoutbufsize - 1`
as a function of the buffer fill ratio. -/
def drop_probability (fill : ℚ) : ℚ := 2 * fill - 1

/-- Environment of one `send_tcppacket` call: the uniform draw
`rand()/RAND_MAX` and the success of the two underlying writes. -/
structure TcpEnv where
  draw : ℚ
  send_request_ok : Bool
  send_meta_ok : Bool

/-- Observable behaviour of one `send_tcppacket` call: the returned bool,
the framing line written (if any), and the length of the raw payload
written via `send_meta` (if reached). -/
structure TcpSendTrace where
  result : Bool
  framing : Option (List Char)
  payload : Option Nat
deriving DecidableEq

/-- `send_tcppacket`: random early drop on the outbuf fill ratio, then the
PACKET framing line, then the raw payload. -/
def send_tcppacket (env : TcpEnv) (maxoutbufsize : Nat) (c : ConnData) (plen : Nat) :
    TcpSendTrace :=
  if drop_probability ((c.outbuf_len : ℚ) / (maxoutbufsize : ℚ)) > env.draw then
    ⟨true, none, none⟩
  else if env.send_request_ok = false then ⟨false, some (packet_line plen), none⟩
  else ⟨env.send_meta_ok, some (packet_line plen), some plen⟩

/-- The `sscanf(request, "%*d %hd", &len)` decode used by `tcppacket_h`. -/
def tcppacketScan (s : List Char) : Option Int :=
  match scanInt s with
  | none => none
  | some (_, r0) =>
    match scanInt r0 with
    | none => none
    | some (v, _) => some (shortOfInt v)

/-- `tcppacket_h`: decode the announced length; on failure reject, on
success record it as `c->tcplen` for the transport reader. -/
def tcppacket_h (c : ConnData) (request : String) : ConnData × Bool :=
  match tcppacketScan request.data with
  | none => (c, false)
  | some len => ({ c with tcplen := len }, true)

/-! ## UDP rendezvous & relay router (`send_udp_info`, `udp_info_h`) -/

/-- The relay collapse performed first by `send_udp_info`:
`to = (to->via == myself) ? to->nexthop : to->via`. -/
def relay_collapse (st : MeshState) (toN : NodeData) : NodeId :=
  if toN.via = st.myself then toN.nexthop else toN.via

/-- The body of `send_udp_info` after the relay collapse: the early-exit
checks, the choice of advertised address, and the emission of the
UDP_INFO request on the connection to `to->nexthop`.  `none` models an
invalid dereference (a `NULL` pointer access). -/
def send_udp_info_body (env : Env) (st : MeshState) (from0 to1 : NodeId) :
    Option (Bool × List Emitted) :=
  if to1 = st.myself then some (true, [])
  else
    match getNode st to1 with
    | none => none
    | some to1N =>
      if to1N.status.reachable = false then some (true, [])
      else if from0 = st.myself ∧ to1N.connection.isSome then some (true, [])
      else
        match getNode st from0, getNode st st.myself with
        | some fromN, some myN =>
          if ((myN.options ||| fromN.options ||| to1N.options) &&& OPTION_TCPONLY) ≠ 0 then
            some (true, [])
          else
            match getNode st to1N.nexthop with
            | none => none
            | some nhN =>
              if nhN.options >>> 24 < 5 then some (true, [])
              else
                match nhN.connection with
                | none => none
                | some conn =>
                  match
                    (if from0 = st.myself then conn.edge.map (fun e => sockaddr2str e.local_address)
                     else some (sockaddr2str fromN.address)) with
                  | none => none
                  | some (from_address, from_port) =>
                    let msg : UdpInfoMsg := ⟨fromN.name, to1N.name, from_address, from_port⟩
                    some (env.send_ok conn msg, [(conn, msg)])
        | _, _ => none

/-- `send_udp_info(from, to)`: collapse the destination past ourselves
(or up to its static relay), then run the checks and emit. -/
def send_udp_info (env : Env) (st : MeshState) (from0 to0 : NodeId) :
    Option (Bool × List Emitted) :=
  match getNode st to0 with
  | none => none
  | some toN => send_udp_info_body env st from0 (relay_collapse st toN)

/-- The `sscanf(request, "%*d %2047s %2047s %2047s %2047s", ...)` decode
used by `udp_info_h`. -/
def udpInfoScan (s : List Char) : Option UdpInfoMsg :=
  match scanInt s with
  | none => none
  | some (_, r0) =>
    match scanString 2047 r0 with
    | none => none
    | some (fn, r1) =>
      match scanString 2047 r1 with
      | none => none
      | some (tn, r2) =>
        match scanString 2047 r2 with
        | none => none
        | some (fa, r3) =>
          match scanString 2047 r3 with
          | none => none
          | some (fp, _) => some ⟨fn, tn, fa, fp⟩

/-- The opportunistic address-learning step of `udp_info_h`: only without
a direct connection to `from` and without an independently confirmed UDP
address, and only when the advertised address differs from the recorded
one, record it. -/
def udp_learn (st : MeshState) (fromId : NodeId) (fromN : NodeData) (msg : UdpInfoMsg) :
    MeshState :=
  if fromN.connection.isNone ∧ fromN.status.udp_confirmed = false then
    if sockaddrcmp (str2sockaddr msg.from_address msg.from_port) fromN.address then
      update_node_udp st fromId (str2sockaddr msg.from_address msg.from_port)
    else st
  else st

/-- `udp_info_h`: decode and validate, resolve `from`, contain
relay-boundary violations, opportunistically learn `from`'s address,
resolve `to`, then forward via `send_udp_info`.  The result is the
handler's bool, the updated state and the emitted requests (`none` models
an invalid dereference inside the forwarding call). -/
def udp_info_h (env : Env) (st : MeshState) (c : ConnData) (request : String) :
    Option (Bool × MeshState × List Emitted) :=
  match udpInfoScan request.data with
  | none => some (false, st, [])
  | some msg =>
    if env.check_id msg.from_name ∧ env.check_id msg.to_name then
      match lookup_node st msg.from_name with
      | none => some (true, st, [])
      | some (fromId, fromN) =>
        if fromN.via = fromId then
          let st1 := udp_learn st fromId fromN msg
          match lookup_node st1 msg.to_name with
          | none => some (true, st1, [])
          | some (toId, _) =>
            match send_udp_info env st1 fromId toId with
            | none => none
            | some (b, ems) => some (b, st1, ems)
        else some (true, st, [])
    else some (false, st, [])

/-! ## Fixtures for witnesses and counterexamples -/

/-- A plain connection with no outgoing record and an empty outbuf. -/
def connFix : ConnData := ⟨"peer", "host", ⟨false⟩, none, 0, 0, none⟩

/-- A populated outgoing record. -/
def outFix : OutgoingData := ⟨"peer", 30, some 7, some 3, some 4⟩

/-- A connection that resulted from an outgoing attempt we initiated. -/
def connOutFix : ConnData := ⟨"peer", "host", ⟨true⟩, some outFix, 0, 0, none⟩

/-- A benign environment: every identifier valid, every send succeeds. -/
def envFix : Env := ⟨fun _ => true, fun _ _ => true⟩

/-- An environment whose underlying `send_request` enqueue fails. -/
def envSendFail : Env := ⟨fun _ => true, fun _ _ => false⟩

/-- The local node, at index 0 of the fixture states. -/
def myFix : NodeData := ⟨"me", "local", ⟨"0.0.0.0", "655"⟩, 0, 0, none, 0, ⟨true, false⟩⟩

/-- The connection held to the relay node `nodeR`. -/
def connR : ConnData := ⟨"r", "rhost", ⟨false⟩, none, 0, 0, some ⟨⟨"10.0.0.1", "656"⟩⟩⟩

/-- A node routed through the static relay at index 2. -/
def nodeT : NodeData := ⟨"t", "th", ⟨"1.2.3.4", "1"⟩, 2, 2, none, 0, ⟨true, false⟩⟩

/-- A reachable, feature-level-5, directly connected relay at index 2. -/
def nodeR : NodeData := ⟨"r", "rh", ⟨"5.6.7.8", "2"⟩, 2, 2, some connR, 5 <<< 24, ⟨true, false⟩⟩

/-- State: ourselves, a node behind a static relay, and the relay. -/
def stC1 : MeshState := ⟨[myFix, nodeT, nodeR], 0⟩

/-- As `nodeR` but with no connection held to it. -/
def nodeRNoConn : NodeData :=
  ⟨"r", "rh", ⟨"5.6.7.8", "2"⟩, 2, 2, none, 5 <<< 24, ⟨true, false⟩⟩

/-- As `stC1` but with no connection to the relay: every early-exit check
passes and the send dereferences a missing connection. -/
def stC9 : MeshState := ⟨[myFix, nodeT, nodeRNoConn], 0⟩

/-- A node whose relay collapse ends at the local node itself. -/
def nodeD : NodeData := ⟨"d", "dh", ⟨"4.4.4.4", "4"⟩, 0, 0, none, 0, ⟨true, false⟩⟩

/-- State for the first early-exit: the collapsed destination is local. -/
def stC5 : MeshState := ⟨[myFix, nodeD], 0⟩

/-- A directly reachable node (`via` = itself), no connection held, UDP
address not independently confirmed. -/
def nodeA : NodeData := ⟨"a", "ah", ⟨"1.2.3.4", "1"⟩, 1, 1, none, 0, ⟨true, false⟩⟩

/-- State for the opportunistic-learning claim. -/
def stC10 : MeshState := ⟨[myFix, nodeA], 0⟩

/-! ### Print/parse round-trip lemmas -/

theorem natCharsCore_fuel (f1 : Nat) : ∀ f2 n acc, n < f1 → n < f2 →
    natCharsCore f1 n acc = natCharsCore f2 n acc := by
  induction f1 with
  | zero => omega
  | succ f1 ih =>
    intro f2 n acc h1 h2
    cases f2 with
    | zero => omega
    | succ f2 =>
      by_cases h : n < 10
      · simp [natCharsCore, h]
      · have hd : n / 10 < n := Nat.div_lt_self (by omega) (by omega)
        simp only [natCharsCore, if_neg h]
        exact ih f2 (n / 10) _ (by omega) (by omega)

theorem natCharsCore_append (fuel : Nat) : ∀ n acc, n < fuel →
    natCharsCore fuel n acc = natCharsCore fuel n [] ++ acc := by
  induction fuel with
  | zero => omega
  | succ fuel ih =>
    intro n acc h1
    by_cases h : n < 10
    · simp [natCharsCore, h]
    · have hd : n / 10 < n := Nat.div_lt_self (by omega) (by omega)
      simp only [natCharsCore, if_neg h]
      rw [ih (n / 10) _ (by omega), ih (n / 10) [digitChar (n % 10)] (by omega)]
      simp

/-- One-step unfolding of the decimal rendering. -/
theorem natChars_unfold (n : Nat) :
    natChars n = if n < 10 then [digitChar n] else natChars (n / 10) ++ [digitChar (n % 10)] := by
  by_cases h : n < 10
  · simp [natChars, natCharsCore, h]
  · have hd : n / 10 < n := Nat.div_lt_self (by omega) (by omega)
    rw [natChars, natCharsCore, if_neg h, if_neg h,
      natCharsCore_fuel n (n / 10 + 1) (n / 10) _ (by omega) (by omega),
      natCharsCore_append (n / 10 + 1) (n / 10) _ (by omega)]
    rfl

theorem digitChar_isDigit {d : Nat} (h : d < 10) : (digitChar d).isDigit = true := by
  interval_cases d <;> decide

theorem digitVal_digitChar {d : Nat} (h : d < 10) : digitVal (digitChar d) = d := by
  interval_cases d <;> decide

theorem natChars_ne_nil (n : Nat) : natChars n ≠ [] := by
  rw [natChars_unfold]
  by_cases h : n < 10 <;> simp [h]

theorem natChars_all_digit (n : Nat) : ∀ c ∈ natChars n, c.isDigit = true := by
  induction n using Nat.strong_induction_on with
  | _ n ih =>
    intro c hc
    rw [natChars_unfold] at hc
    by_cases h : n < 10
    · rw [if_pos h] at hc
      simp at hc
      exact hc ▸ digitChar_isDigit h
    · rw [if_neg h] at hc
      rcases List.mem_append.1 hc with h1 | h1
      · exact ih (n / 10) (Nat.div_lt_self (by omega) (by omega)) c h1
      · simp at h1
        exact h1 ▸ digitChar_isDigit (Nat.mod_lt n (by omega))

theorem digitsVal_append_singleton (ds : List Char) (c : Char) :
    digitsVal (ds ++ [c]) = 10 * digitsVal ds + digitVal c := by
  simp [digitsVal, List.foldl_append]

theorem digitsVal_natChars (n : Nat) : digitsVal (natChars n) = n := by
  induction n using Nat.strong_induction_on with
  | _ n ih =>
    rw [natChars_unfold]
    by_cases h : n < 10
    · rw [if_pos h]
      simp [digitsVal, digitVal_digitChar h]
    · rw [if_neg h, digitsVal_append_singleton,
        ih (n / 10) (Nat.div_lt_self (by omega) (by omega)),
        digitVal_digitChar (Nat.mod_lt n (by omega))]
      omega


theorem takeDigits_append {xs rest : List Char} (hxs : ∀ c ∈ xs, c.isDigit = true)
    (hrest : headNotDigit rest) : takeDigits (xs ++ rest) = (xs, rest) := by
  induction xs with
  | nil =>
    cases rest with
    | nil => rfl
    | cons c cs =>
      simp [headNotDigit] at hrest
      simp [takeDigits, hrest]
  | cons x xs ih =>
    have hx : x.isDigit = true := hxs x (by simp)
    have hxs' : ∀ c ∈ xs, c.isDigit = true := fun c hc => hxs c (by simp [hc])
    simp [takeDigits, hx, ih hxs']

theorem isDigit_not_ws {c : Char} (h : c.isDigit = true) : isWs c = false := by
  rcases Bool.eq_false_or_eq_true (isWs c) with hw | hw
  · exfalso
    rw [isWs] at hw
    simp only [Bool.or_eq_true, decide_eq_true_eq] at hw
    rcases hw with ((((rfl | rfl) | rfl) | rfl) | rfl) | rfl <;> exact absurd h (by decide)
  · exact hw

theorem skipWs_not_ws {c : Char} (h : isWs c = false) (t : List Char) :
    skipWs (c :: t) = c :: t := by
  simp [skipWs, h]

theorem scanDigits_natChars (n : Nat) {rest : List Char} (hrest : headNotDigit rest) :
    scanDigits (natChars n ++ rest) = some (n, rest) := by
  rw [scanDigits, takeDigits_append (natChars_all_digit n) hrest]
  simp [natChars_ne_nil n, digitsVal_natChars]

theorem natChars_head_digit (n : Nat) :
    ∃ c cs, natChars n = c :: cs ∧ c.isDigit = true := by
  rcases h : natChars n with _ | ⟨c, cs⟩
  · exact absurd h (natChars_ne_nil n)
  · exact ⟨c, cs, rfl, natChars_all_digit n c (by rw [h]; simp)⟩

/-- Parsing the printed form of an integer recovers the integer, whatever
follows it, as long as what follows does not begin with a digit. -/
theorem scanInt_intChars (i : Int) {rest : List Char} (hrest : headNotDigit rest) :
    scanInt (intChars i ++ rest) = some (i, rest) := by
  by_cases hi : i < 0
  · rw [intChars, if_pos hi, List.cons_append, scanInt,
      skipWs_not_ws (by decide) (natChars i.natAbs ++ rest)]
    have habs : ((i.natAbs : Int)) = -i := by omega
    simp [scanIntCore, scanDigits_natChars i.natAbs hrest, habs]
  · obtain ⟨c, cs, hnc, hcd⟩ := natChars_head_digit i.toNat
    have hc1 : c ≠ '-' := by rintro rfl; exact absurd hcd (by decide)
    have hc2 : c ≠ '+' := by rintro rfl; exact absurd hcd (by decide)
    rw [intChars, if_neg hi, hnc, List.cons_append, scanInt,
      skipWs_not_ws (isDigit_not_ws hcd) (cs ++ rest)]
    simp only [scanIntCore]
    rw [if_neg hc1, if_neg hc2, ← List.cons_append, ← hnc,
      scanDigits_natChars i.toNat hrest]
    simp [Int.toNat_of_nonneg (not_lt.1 hi)]

/-! ## Claims about Status, Pong and the TCP fallback channel -/

/-- Claim C4, counterexample: on the malformed Status line `"5"` (opcode
only, missing the integer code), `status_h` returns `false` — the
connection-closing signal — so it does not return `true` for every input
line. -/
theorem status_h_cx : status_h connFix "5" = false := rfl

/-- Claim C4 (amended): `status_h` returns `true` exactly for lines that
decode an integer code and a text field; on any line whose decode fails it
returns `false`, the connection-closing signal. -/
theorem status_h_amended (c : ConnData) (request : String) :
    status_h c request = true ↔ ∃ code text, statusScan request.data = some (code, text) := by
  unfold status_h
  rcases h : statusScan request.data with _ | ⟨code, text⟩ <;> simp [h]

/-- Claim C8: for any prior connection state, `pong_h` clears `pinged` and
returns `true`; whenever the outgoing record is present it additionally
zeroes the retry timeout, clears the cached connect configuration, and
clears the resolved-address iterator state (`ai` and `aip`), leaving the
record's other fields unchanged. -/
theorem pong_h_spec (c : ConnData) :
    (pong_h c).2 = true ∧ (pong_h c).1.status.pinged = false ∧
    (∀ o, c.outgoing = some o →
      (pong_h c).1.outgoing =
        some { o with timeout := 0, cfg := none, ai := none, aip := none }) := by
  refine ⟨?_, ?_, ?_⟩
  · rcases h : c.outgoing with _ | o <;> simp [pong_h, h]
  · rcases h : c.outgoing with _ | o <;> simp [pong_h, h]
  · intro o ho
    simp [pong_h, ho]

/-- Claim C8, witness: on a connection with a populated outgoing record,
`pong_h` returns `true` and resets the record. -/
theorem pong_h_spec_witness :
    (pong_h connOutFix).2 = true ∧
    (pong_h connOutFix).1.outgoing = some ⟨"peer", 0, none, none, none⟩ :=
  ⟨(pong_h_spec connOutFix).1, ((pong_h_spec connOutFix).2.2 outFix rfl).trans rfl⟩

/-- Claim C3: the RED drop probability `2*fill − 1` is at most `0` for
every fill in `[0, 1/2]` (and then, for any non-negative draw, the packet
is not dropped), equals `1` at fill `1`, and is monotone non-decreasing;
whenever the drop fires, the packet is silently discarded and the call
reports success. -/
theorem red_drop_spec :
    (∀ fill : ℚ, 0 ≤ fill → fill ≤ 1 / 2 → drop_probability fill ≤ 0) ∧
    drop_probability 1 = 1 ∧
    (∀ f g : ℚ, f ≤ g → drop_probability f ≤ drop_probability g) ∧
    (∀ (env : TcpEnv) (mob : Nat) (c : ConnData) (plen : Nat),
      0 ≤ env.draw → (c.outbuf_len : ℚ) / (mob : ℚ) ≤ 1 / 2 →
      (send_tcppacket env mob c plen).framing = some (packet_line plen)) ∧
    (∀ (env : TcpEnv) (mob : Nat) (c : ConnData) (plen : Nat),
      drop_probability ((c.outbuf_len : ℚ) / (mob : ℚ)) > env.draw →
      send_tcppacket env mob c plen = ⟨true, none, none⟩) := by
  refine ⟨?_, ?_, ?_, ?_, ?_⟩
  · intro fill h0 h2
    unfold drop_probability
    linarith
  · norm_num [drop_probability]
  · intro f g h
    unfold drop_probability
    linarith
  · intro env mob c plen hdraw hfill
    have h0 : (0 : ℚ) ≤ (c.outbuf_len : ℚ) / (mob : ℚ) :=
      div_nonneg (by positivity) (by positivity)
    have hnd : ¬ drop_probability ((c.outbuf_len : ℚ) / (mob : ℚ)) > env.draw := by
      unfold drop_probability
      push_neg
      linarith
    rw [send_tcppacket, if_neg hnd]
    rcases h : env.send_request_ok with _ | _ <;> simp [h]
  · intro env mob c plen hdrop
    rw [send_tcppacket, if_pos hdrop]

/-- Claim C3, witness: with an empty outbuf and a zero draw the packet is
framed, and the drop probability is non-positive at fill `0`. -/
theorem red_drop_spec_witness :
    drop_probability 0 ≤ 0 ∧
    (send_tcppacket ⟨0, true, true⟩ 1000 connFix 5).framing = some (packet_line 5) :=
  ⟨red_drop_spec.1 0 le_rfl (by norm_num),
    red_drop_spec.2.2.2.1 ⟨0, true, true⟩ 1000 connFix 5 le_rfl (by norm_num [connFix])⟩

theorem scanInt_cons_space (t : List Char) : scanInt (' ' :: t) = scanInt t := by
  simp [scanInt, skipWs, isWs]

theorem shortOfInt_shortOfNat (n : Nat) : shortOfInt (shortOfNat n) = shortOfNat n := by
  unfold shortOfNat shortOfInt
  omega

/-- Decoding the PACKET framing line recovers the 16-bit signed
reinterpretation of the announced length. -/
theorem tcppacketScan_packet_line (plen : Nat) :
    tcppacketScan (packet_line plen) = some (shortOfNat plen) := by
  have h1 : scanInt (packet_line plen) =
      some ((PACKET : Int), ' ' :: intChars (shortOfNat plen)) := by
    rw [packet_line]
    exact @scanInt_intChars (PACKET : Int) (' ' :: intChars (shortOfNat plen))
      (by simp [headNotDigit])
  have h2 : scanInt (' ' :: intChars (shortOfNat plen)) = some (shortOfNat plen, []) := by
    rw [scanInt_cons_space]
    have h := @scanInt_intChars (shortOfNat plen) [] trivial
    rwa [List.append_nil] at h
  simp only [tcppacketScan, h1, h2]
  rw [shortOfInt_shortOfNat]

/-- Claim C2 (amended): encoding a packet of length `L ∈ [0, 65535]` with
`send_tcppacket` and decoding the framing line with `tcppacket_h` yields
`L` as the pending TCP payload length only for `L ≤ 32767`; for
`L ∈ [32768, 65535]` the `%hd` conversion pair reinterprets the length as
the negative value `L − 65536`. -/
theorem tcppacket_roundtrip (env : TcpEnv) (mob : Nat) (c c2 : ConnData) (L : Nat)
    (hL : L ≤ 65535) (line : List Char)
    (hframe : (send_tcppacket env mob c L).framing = some line) :
    tcppacket_h c2 (String.mk line) = ({ c2 with tcplen := shortOfNat L }, true) ∧
    (L < 32768 → shortOfNat L = (L : Int)) ∧
    (32768 ≤ L → shortOfNat L = (L : Int) - 65536) := by
  have hline : line = packet_line L := by
    by_cases h1 : drop_probability ((c.outbuf_len : ℚ) / (mob : ℚ)) > env.draw
    · rw [send_tcppacket, if_pos h1] at hframe
      simp at hframe
    · rw [send_tcppacket, if_neg h1] at hframe
      by_cases h2 : env.send_request_ok = false
      · rw [if_pos h2] at hframe
        simp at hframe
        exact hframe.symm
      · rw [if_neg h2] at hframe
        simp at hframe
        exact hframe.symm
  subst hline
  refine ⟨?_, ?_, ?_⟩
  · simp only [tcppacket_h]
    rw [tcppacketScan_packet_line]
  · intro h
    unfold shortOfNat shortOfInt
    omega
  · intro h
    unfold shortOfNat shortOfInt
    omega

/-- Claim C2, witness: length 5 round-trips to a pending payload length
of exactly 5. -/
theorem tcppacket_roundtrip_witness :
    tcppacket_h connFix (String.mk (packet_line 5)) = ({ connFix with tcplen := 5 }, true) := by
  have hnd : ¬ drop_probability ((connFix.outbuf_len : ℚ) / ((1000 : Nat) : ℚ)) >
      (⟨0, true, true⟩ : TcpEnv).draw := by
    norm_num [drop_probability, connFix]
  have hframe : (send_tcppacket ⟨0, true, true⟩ 1000 connFix 5).framing =
      some (packet_line 5) := by
    rw [send_tcppacket, if_neg hnd]
    simp
  exact (tcppacket_roundtrip ⟨0, true, true⟩ 1000 connFix connFix 5 (by norm_num)
    (packet_line 5) hframe).1

/-- Claim C2, counterexample: for `L = 32768` the framing line is emitted,
but decoding it records `-32768` — not `32768` — as the pending TCP
payload length. -/
theorem tcppacket_roundtrip_cx :
    (send_tcppacket ⟨0, true, true⟩ 1000 connFix 32768).framing = some (packet_line 32768) ∧
    (tcppacket_h connFix (String.mk (packet_line 32768))).1.tcplen = -32768 ∧
    (tcppacket_h connFix (String.mk (packet_line 32768))).1.tcplen ≠ (32768 : Int) := by
  refine ⟨?_, rfl, by decide⟩
  have hnd : ¬ drop_probability ((connFix.outbuf_len : ℚ) / ((1000 : Nat) : ℚ)) >
      (⟨0, true, true⟩ : TcpEnv).draw := by
    norm_num [drop_probability, connFix]
  rw [send_tcppacket, if_neg hnd]
  simp

/-! ## Claims about the UDP rendezvous & relay router -/

/-- Claim C1, counterexample: with `to = nodeT` whose `via` (the relay,
index 2) is neither the local node nor `to` itself, `send_udp_info` does
not keep the original destination: the emitted request names the relay
`"r"`, not `"t"`. -/
theorem send_udp_info_collapse_cx :
    nodeAt stC1.nodes 1 = some nodeT ∧ nodeT.via ≠ stC1.myself ∧
    send_udp_info envFix stC1 1 1 =
      some (true, [(connR, ⟨"t", "r", "1.2.3.4", "1"⟩)]) ∧
    (⟨"t", "r", "1.2.3.4", "1"⟩ : UdpInfoMsg).to_name ≠ nodeT.name := by
  refine ⟨rfl, by decide, rfl, by decide⟩

/-- Claim C1 (amended): before any early-exit check, `send_udp_info`
collapses the destination: when `to.via` is the local node, `to` becomes
`to.nexthop`, and otherwise `to` becomes `to.via` (not the node originally
passed in); all subsequent checks and the emitted request use this
collapsed destination. -/
theorem send_udp_info_collapse (env : Env) (st : MeshState) (from0 to0 : NodeId)
    (toN : NodeData) (h : getNode st to0 = some toN) :
    send_udp_info env st from0 to0 =
      send_udp_info_body env st from0 (relay_collapse st toN) ∧
    (toN.via = st.myself → relay_collapse st toN = toN.nexthop) ∧
    (toN.via ≠ st.myself → relay_collapse st toN = toN.via) := by
  refine ⟨?_, fun hv => by simp [relay_collapse, hv], fun hv => by simp [relay_collapse, hv]⟩
  rw [send_udp_info, h]

/-- Claim C1, witness: in the relay fixture the collapse lands on `to.via`
and the call is the collapsed-body call. -/
theorem send_udp_info_collapse_witness :
    send_udp_info envFix stC1 1 1 =
      send_udp_info_body envFix stC1 1 (relay_collapse stC1 nodeT) ∧
    relay_collapse stC1 nodeT = nodeT.via :=
  ⟨(send_udp_info_collapse envFix stC1 1 1 nodeT rfl).1,
    (send_udp_info_collapse envFix stC1 1 1 nodeT rfl).2.2 (by decide)⟩

/-- Claim C5: `send_udp_info` returns success and emits nothing whenever
any of the five early-exit conditions holds of the collapsed destination:
it is the local node; it is unreachable; `from` is local and a direct
connection to it exists; any of the local node, `from` or it is TCP-only;
or its nexthop's feature-level byte is below 5. -/
theorem send_udp_info_early_exits (env : Env) (st : MeshState) (from0 to0 : NodeId)
    (toN to1N fromN myN nhN : NodeData)
    (h1 : getNode st to0 = some toN)
    (h2 : getNode st (relay_collapse st toN) = some to1N)
    (h3 : getNode st from0 = some fromN)
    (h4 : getNode st st.myself = some myN)
    (h5 : getNode st to1N.nexthop = some nhN)
    (hcond : relay_collapse st toN = st.myself ∨ to1N.status.reachable = false ∨
      (from0 = st.myself ∧ to1N.connection.isSome) ∨
      ((myN.options ||| fromN.options ||| to1N.options) &&& OPTION_TCPONLY) ≠ 0 ∨
      nhN.options >>> 24 < 5) :
    send_udp_info env st from0 to0 = some (true, []) := by
  rw [send_udp_info, h1]
  simp only [send_udp_info_body, h2, h3, h4, h5]
  split_ifs with g1 g2 g3 g4 g5 <;>
    first
      | rfl
      | (rcases hcond with hc | hc | hc | hc | hc <;> contradiction)

/-- Claim C5, witness: a destination whose collapse lands on the local
node is a silent success. -/
theorem send_udp_info_early_exits_witness :
    send_udp_info envFix stC5 1 1 = some (true, []) :=
  send_udp_info_early_exits envFix stC5 1 1 nodeD myFix nodeD myFix myFix
    rfl rfl rfl rfl rfl (Or.inl rfl)

/-- Claim C9: once the relay collapse is done and all five early-exit
checks have passed, `send_udp_info` performs an invalid dereference
(models `NULL` access) exactly when the collapsed destination's nexthop
holds no connection — it unconditionally accesses
`to->nexthop->connection` — or, when `from` is the local node, when that
connection has no edge (it then also accesses
`...->connection->edge->local_address`).  No early-exit check establishes
that the connection is present (see the witness). -/
theorem send_udp_info_deref (env : Env) (st : MeshState) (from0 to0 : NodeId)
    (toN to1N fromN myN nhN : NodeData)
    (h1 : getNode st to0 = some toN)
    (h2 : getNode st (relay_collapse st toN) = some to1N)
    (h3 : getNode st from0 = some fromN)
    (h4 : getNode st st.myself = some myN)
    (h5 : getNode st to1N.nexthop = some nhN)
    (g1 : relay_collapse st toN ≠ st.myself)
    (g2 : to1N.status.reachable = true)
    (g3 : ¬(from0 = st.myself ∧ to1N.connection.isSome))
    (g4 : ((myN.options ||| fromN.options ||| to1N.options) &&& OPTION_TCPONLY) = 0)
    (g5 : ¬ nhN.options >>> 24 < 5) :
    send_udp_info env st from0 to0 = none ↔
      nhN.connection = none ∨
        (from0 = st.myself ∧ ∃ conn, nhN.connection = some conn ∧ conn.edge = none) := by
  rw [send_udp_info, h1]
  simp only [send_udp_info_body, h2, h3, h4, h5]
  rw [if_neg g1, if_neg (by simp [g2]), if_neg g3, if_neg (by simp [g4]), if_neg g5]
  rcases hc : nhN.connection with _ | conn
  · simp
  · by_cases hm : from0 = st.myself
    · rcases he : conn.edge with _ | e
      · simp [hm, he]
      · simp [hm, he]
    · simp [hm]

/-- Claim C9, witness: a state in which every early-exit check passes and
the collapsed destination's nexthop has no connection; `send_udp_info`
dereferences the missing connection. -/
theorem send_udp_info_deref_witness :
    send_udp_info envFix stC9 1 1 = none :=
  (send_udp_info_deref envFix stC9 1 1 nodeT nodeRNoConn nodeT myFix nodeRNoConn
    rfl rfl rfl rfl rfl (by decide) rfl (by decide) (by decide) (by decide)).mpr
    (Or.inl rfl)

/-- Claim C7: a well-formed UDP_INFO request whose `from` resolves to a
node whose `via` is not the node itself is tolerated (`true`) with no
address update, no forwarding and no state change at all. -/
theorem udp_info_h_relay_boundary (env : Env) (st : MeshState) (c : ConnData)
    (req : String) (msg : UdpInfoMsg) (fromId : NodeId) (fromN : NodeData)
    (hscan : udpInfoScan req.data = some msg)
    (hid1 : env.check_id msg.from_name = true)
    (hid2 : env.check_id msg.to_name = true)
    (hfrom : lookup_node st msg.from_name = some (fromId, fromN))
    (hvia : fromN.via ≠ fromId) :
    udp_info_h env st c req = some (true, st, []) := by
  simp only [udp_info_h, hscan, hfrom]
  rw [if_pos ⟨hid1, hid2⟩, if_neg hvia]

/-- Claim C7, witness: `"t"` resolves to a node behind a static relay
(`via` = 2 ≠ 1); the handler tolerates and leaves everything unchanged. -/
theorem udp_info_h_relay_boundary_witness :
    udp_info_h envFix stC1 connFix "22 t r 1.2.3.4 655" = some (true, stC1, []) :=
  udp_info_h_relay_boundary envFix stC1 connFix "22 t r 1.2.3.4 655"
    ⟨"t", "r", "1.2.3.4", "655"⟩ 1 nodeT rfl rfl rfl rfl (by decide)

theorem nodeAt_setNodeAddress (l : List NodeData) : ∀ (i : Nat) (sa : SockAddr),
    nodeAt (setNodeAddress l i sa) i = (nodeAt l i).map (fun n => { n with address := sa }) := by
  induction l with
  | nil => intro i sa; cases i <;> rfl
  | cons n ns ih =>
    intro i sa
    cases i with
    | zero => rfl
    | succ j => exact ih j sa

theorem lookupNodeAux_getNode (l : List NodeData) : ∀ (k : Nat) (s : String)
    (i : NodeId) (n : NodeData), lookupNodeAux l k s = some (i, n) →
    ∃ j, i = k + j ∧ nodeAt l j = some n := by
  induction l with
  | nil => intro k s i n h; exact Option.noConfusion h
  | cons m ms ih =>
    intro k s i n h
    rw [lookupNodeAux] at h
    by_cases hm : m.name = s
    · rw [if_pos hm] at h
      injection h with h2
      injection h2 with hi hn
      refine ⟨0, by rw [Nat.add_zero]; exact hi.symm, ?_⟩
      rw [← hn]
      rfl
    · rw [if_neg hm] at h
      obtain ⟨j, hj, hn⟩ := ih (k + 1) s i n h
      refine ⟨j + 1, hj.trans (by rw [Nat.add_assoc, Nat.add_comm 1 j]), hn⟩

/-- A successful name lookup is a valid dereference. -/
theorem lookup_node_getNode {st : MeshState} {s : String} {i : NodeId} {n : NodeData}
    (h : lookup_node st s = some (i, n)) : getNode st i = some n := by
  obtain ⟨j, hj, hn⟩ := lookupNodeAux_getNode st.nodes 0 s i n h
  rw [getNode, hj]
  simpa using hn

/-- Claim C10: the opportunistic address-learning step precedes the
lookup of `to_name`: when `from` resolves to a directly reachable node
(`via` = itself) with no direct connection and no independently confirmed
UDP address, and the advertised address differs from the recorded one,
the handler records the advertised address even when `to_name` resolves
to no known node — and then tolerates (`true`) without forwarding. -/
theorem udp_info_h_learn_before_to (env : Env) (st : MeshState) (c : ConnData)
    (req : String) (msg : UdpInfoMsg) (fromId : NodeId) (fromN : NodeData)
    (hscan : udpInfoScan req.data = some msg)
    (hid1 : env.check_id msg.from_name = true)
    (hid2 : env.check_id msg.to_name = true)
    (hfrom : lookup_node st msg.from_name = some (fromId, fromN))
    (hvia : fromN.via = fromId)
    (hconn : fromN.connection = none)
    (hconf : fromN.status.udp_confirmed = false)
    (haddr : str2sockaddr msg.from_address msg.from_port ≠ fromN.address)
    (hto : lookup_node
        (update_node_udp st fromId (str2sockaddr msg.from_address msg.from_port))
        msg.to_name = none) :
    udp_info_h env st c req =
      some (true, update_node_udp st fromId (str2sockaddr msg.from_address msg.from_port), []) ∧
    getNode (update_node_udp st fromId (str2sockaddr msg.from_address msg.from_port)) fromId =
      some { fromN with address := str2sockaddr msg.from_address msg.from_port } := by
  have hl : udp_learn st fromId fromN msg =
      update_node_udp st fromId (str2sockaddr msg.from_address msg.from_port) := by
    rw [udp_learn, if_pos ⟨by simp [hconn], hconf⟩,
      if_pos (by simp only [sockaddrcmp]; exact decide_eq_true haddr)]
  constructor
  · simp only [udp_info_h, hscan, hfrom]
    rw [if_pos ⟨hid1, hid2⟩, if_pos hvia]
    simp only [hl, hto]
  · rw [update_node_udp, getNode]
    have h := nodeAt_setNodeAddress st.nodes fromId (str2sockaddr msg.from_address msg.from_port)
    rw [show (⟨setNodeAddress st.nodes fromId (str2sockaddr msg.from_address msg.from_port),
        st.myself⟩ : MeshState).nodes =
        setNodeAddress st.nodes fromId (str2sockaddr msg.from_address msg.from_port) from rfl,
      h, show nodeAt st.nodes fromId = some fromN from lookup_node_getNode hfrom]
    rfl

/-- Claim C10, witness: `"a"` has `via` = itself, no connection, an
unconfirmed address differing from the advertised one, and `"zzz"` is
unknown — the address is still updated and the handler returns `true`
with nothing forwarded. -/
theorem udp_info_h_learn_before_to_witness :
    udp_info_h envFix stC10 connFix "22 a zzz 9.9.9.9 99" =
      some (true, ⟨[myFix, { nodeA with address := ⟨"9.9.9.9", "99"⟩ }], 0⟩, []) ∧
    getNode (⟨[myFix, { nodeA with address := ⟨"9.9.9.9", "99"⟩ }], 0⟩ : MeshState) 1 =
      some { nodeA with address := ⟨"9.9.9.9", "99"⟩ } := by
  have h := udp_info_h_learn_before_to envFix stC10 connFix "22 a zzz 9.9.9.9 99"
    ⟨"a", "zzz", "9.9.9.9", "99"⟩ 1 nodeA rfl rfl rfl rfl rfl rfl rfl (by decide) rfl
  exact ⟨h.1, h.2⟩

/-- `send_udp_info` either silently succeeds emitting nothing, or emits
exactly one request and returns what the underlying send returned. -/
theorem send_udp_info_result_cases (env : Env) (st : MeshState) (f t : NodeId)
    (b : Bool) (ems : List Emitted)
    (h : send_udp_info env st f t = some (b, ems)) :
    (b = true ∧ ems = []) ∨ ∃ cd m, b = env.send_ok cd m ∧ ems = [(cd, m)] := by
  rw [send_udp_info] at h
  rcases hgn : getNode st t with _ | toN
  · rw [hgn] at h
    exact Option.noConfusion h
  · rw [hgn] at h
    simp only [send_udp_info_body] at h
    repeat' split at h
    all_goals
      first
        | exact Option.noConfusion h
        | (injection h with h2
           injection h2 with hb he
           exact Or.inl ⟨hb.symm, he.symm⟩)
        | (injection h with h2
           injection h2 with hb he
           exact Or.inr ⟨_, _, hb.symm, he.symm⟩)

/-- Claim C6 (amended): `udp_info_h` returns the close signal (`false`)
when the request fails to decode into four bounded string fields or when
either name fails the identifier-syntax check — in both cases with no
state mutated and nothing emitted; a request whose `from_name` or
`to_name` resolves to no known node is tolerated (`true`); and the only
other way the handler returns `false` is when the message is forwarded
and the underlying send of the forwarded request fails. -/
theorem udp_info_h_close_iff (env : Env) (st : MeshState) (c : ConnData) (req : String) :
    (udpInfoScan req.data = none → udp_info_h env st c req = some (false, st, [])) ∧
    (∀ msg, udpInfoScan req.data = some msg →
      ¬(env.check_id msg.from_name = true ∧ env.check_id msg.to_name = true) →
      udp_info_h env st c req = some (false, st, [])) ∧
    (∀ msg, udpInfoScan req.data = some msg →
      env.check_id msg.from_name = true → env.check_id msg.to_name = true →
      lookup_node st msg.from_name = none →
      udp_info_h env st c req = some (true, st, [])) ∧
    (∀ msg fromId fromN, udpInfoScan req.data = some msg →
      env.check_id msg.from_name = true → env.check_id msg.to_name = true →
      lookup_node st msg.from_name = some (fromId, fromN) →
      fromN.via = fromId →
      lookup_node (udp_learn st fromId fromN msg) msg.to_name = none →
      udp_info_h env st c req = some (true, udp_learn st fromId fromN msg, [])) ∧
    (∀ b st2 ems, udp_info_h env st c req = some (b, st2, ems) → b = false →
      (st2 = st ∧ ems = [] ∧
        (udpInfoScan req.data = none ∨
          ∃ msg, udpInfoScan req.data = some msg ∧
            ¬(env.check_id msg.from_name = true ∧ env.check_id msg.to_name = true))) ∨
      ∃ cd m, ems = [(cd, m)] ∧ env.send_ok cd m = false) := by
  refine ⟨?_, ?_, ?_, ?_, ?_⟩
  · intro h
    simp only [udp_info_h, h]
  · intro msg hs hid
    simp only [udp_info_h, hs]
    rw [if_neg hid]
  · intro msg hs h1 h2 hf
    simp only [udp_info_h, hs, hf]
    rw [if_pos ⟨h1, h2⟩]
  · intro msg fromId fromN hs h1 h2 hf hv ht
    simp only [udp_info_h, hs, hf]
    rw [if_pos ⟨h1, h2⟩, if_pos hv]
    simp only [ht]
  · intro b st2 ems h hb
    subst hb
    rcases hs : udpInfoScan req.data with _ | msg
    · simp only [udp_info_h, hs] at h
      injection h with h2
      injection h2 with hb2 h3
      injection h3 with hst hems
      exact Or.inl ⟨hst.symm, hems.symm, Or.inl rfl⟩
    · simp only [udp_info_h, hs] at h
      by_cases hid : env.check_id msg.from_name = true ∧ env.check_id msg.to_name = true
      · rw [if_pos hid] at h
        rcases hf : lookup_node st msg.from_name with _ | ⟨fid, fn⟩
        · simp only [hf] at h
          simp at h
        · simp only [hf] at h
          by_cases hv : fn.via = fid
          · rw [if_pos hv] at h
            rcases ht : lookup_node (udp_learn st fid fn msg) msg.to_name with _ | ⟨tid, tn⟩
            · simp only [ht] at h
              simp at h
            · simp only [ht] at h
              rcases hsend : send_udp_info env (udp_learn st fid fn msg) fid tid
                with _ | ⟨b2, ems2⟩
              · simp only [hsend] at h
                exact Option.noConfusion h
              · simp only [hsend] at h
                injection h with h2
                injection h2 with hb2 h3
                injection h3 with hst hems
                rcases send_udp_info_result_cases env _ fid tid b2 ems2 hsend
                  with ⟨hbt, _⟩ | ⟨cd, m, hbm, hem⟩
                · rw [hbt] at hb2
                  exact Bool.noConfusion hb2
                · exact Or.inr ⟨cd, m, hems.symm.trans hem, hbm.symm.trans hb2⟩
          · rw [if_neg hv] at h
            simp at h
      · rw [if_neg hid] at h
        injection h with h2
        injection h2 with hb2 h3
        injection h3 with hst hems
        exact Or.inl ⟨hst.symm, hems.symm, Or.inr ⟨msg, rfl, hid⟩⟩

/-- Claim C6, witness: the truncated line `"22"` fails to decode, and the
handler returns the close signal with the state untouched and nothing
emitted. -/
theorem udp_info_h_close_iff_witness :
    udp_info_h envFix stC10 connFix "22" = some (false, stC10, []) :=
  (udp_info_h_close_iff envFix stC10 connFix "22").1 rfl

/-- Claim C6, counterexample: a request that decodes into four fields and
whose names pass the identifier check still makes `udp_info_h` return the
close signal when the forwarded request's underlying send fails — so
"returns false exactly on decode or identifier-syntax failure" is too
strong. -/
theorem udp_info_h_close_iff_cx :
    udpInfoScan ("22 r r 5.6.7.8 2" : String).data = some ⟨"r", "r", "5.6.7.8", "2"⟩ ∧
    envSendFail.check_id "r" = true ∧
    udp_info_h envSendFail stC1 connFix "22 r r 5.6.7.8 2" =
      some (false, stC1, [(connR, ⟨"r", "r", "5.6.7.8", "2"⟩)]) :=
  ⟨rfl, rfl, rfl⟩

end Tinc
